import Mathlib

/-!
Shallow embedding of the substack-alert feed bot (src/substack-alerter):
the data model from models.py (Author, Article rows and the shared session
state), the ingestion pipeline (Author.update_articles), the announcement
pipeline (SubstackBot.post_articles) and the command dispatcher
(SubstackBot.on_message) from bot.py. Machine-level collaborators (the
Discord transport, feedparser, SQLAlchemy) are modelled at their interface:
a feed is a list of raw entries, a send either succeeds or raises, the
store is the lists of rows with their uniqueness constraints.
-/

/-- A row of the `authors` table (models.py, class Author): primary key,
unique `username`, unique `subdomain`, `thumbnail`. -/
structure Author where
  id : Nat
  username : String
  subdomain : String
  thumbnail : String
deriving DecidableEq

/-- A row of the `articles` table (models.py, class Article): primary key,
`title`, `url`, raw `published` string, `posted` flag, `author_id` FK. -/
structure Article where
  id : Nat
  title : String
  url : String
  published : String
  posted : Bool
  author_id : Nat
deriving DecidableEq

/-- Modelled from the spec: the BannedUser table (bot.py imports BannedUser
from models, but models.py does not define it). Per the spec it is an
access-control entry holding the identifier of a chat user barred from
mutating commands, with a unique identifier; bot.py reads its
`discord_username` column. -/
structure BannedUser where
  discord_username : String
deriving DecidableEq

/-- The persistent store reached through the shared SQLAlchemy session:
the three tables plus the autoincrement counters for the primary keys. -/
structure DBState where
  authors : List Author
  articles : List Article
  banned : List BannedUser
  nextAuthorId : Nat
  nextArticleId : Nat
deriving DecidableEq

/-- A raw feed entry as returned by feedparser: `title`, the raw
`published` string (empty when the entry lacks a publication timestamp,
so that it is falsy as in the Python truth test), the instant
`publishedTime` that dateutil parsing of `published` denotes (seconds),
and `links[0].href`. -/
structure Entry where
  title : String
  published : String
  publishedTime : Int
  linkHref : String
deriving DecidableEq

/-- models.py line 78: `is_article = lambda a: a["published"] and
a["title"] != "Coming soon"`. -/
def isArticleEntry (a : Entry) : Bool :=
  a.published != "" && a.title != "Coming soon"

/-- Python `(now - published).days` on a timedelta: whole days, floored
(timedelta normalisation floors towards minus infinity). -/
def daysBetween (now published : Int) : Int :=
  (now - published).fdiv 86400

/-- Article.__init__ (models.py): build the row with posted=False,
session.add + commit, consuming the autoincrement article id. -/
def DBState.insertArticle (db : DBState) (title url published : String)
    (author_id : Nat) : DBState :=
  { db with
    articles := db.articles ++
      [⟨db.nextArticleId, title, url, published, false, author_id⟩],
    nextArticleId := db.nextArticleId + 1 }

/-- One iteration of the loop body of Author.update_articles
(models.py lines 82-103): freshness filter on whole days, then the
check-before-insert by title alone, then Article creation. -/
def Author.updateStep (au : Author) (now delta : Int) (db : DBState)
    (a : Entry) : DBState :=
  if daysBetween now a.publishedTime > delta then db
  else if (db.articles.find? (fun ar => ar.title == a.title)).isSome then db
  else db.insertArticle a.title a.linkHref a.published au.id

/-- Author.update_articles (models.py lines 71-103): filter the raw feed
entries with is_article, then run the persistence loop. `entries` is the
content of the feed for this author, `now` is datetime.now and `delta`
is the configured OLDEST_POST_DELTA in days. -/
def Author.update_articles (au : Author) (entries : List Entry)
    (now delta : Int) (db : DBState) : DBState :=
  (entries.filter isArticleEntry).foldl (au.updateStep now delta) db

/-- The per-author loop of SubstackBot.update_articles (bot.py lines
236-239). Fetching the feed of a source may raise (network error,
malformed feed): `feeds` returns none in that case. The loop wraps no
handler around `author.update_articles()`, so the exception propagates;
`Except.error st` is that propagation, carrying the store state already
committed by the earlier authors. -/
def updateAuthors (feeds : String → Option (List Entry)) (now delta : Int) :
    List Author → DBState → Except DBState DBState
  | [], db => Except.ok db
  | au :: rest, db =>
    match feeds au.subdomain with
    | none => Except.error db
    | some entries =>
      updateAuthors feeds now delta rest (au.update_articles entries now delta db)

/-- SubstackBot.update_articles (bot.py lines 231-239): query all authors
and update each in turn. -/
def SubstackBot.update_articles (feeds : String → Option (List Entry))
    (now delta : Int) (db : DBState) : Except DBState DBState :=
  updateAuthors feeds now delta db.authors db

/-- The store state an invocation leaves behind, whether it returned
normally or an exception propagated out of it. -/
def exceptState (r : Except DBState DBState) : DBState :=
  match r with
  | Except.ok db => db
  | Except.error db => db

/-- Repeated scheduled RefreshAll ticks: each invocation supplies the feed
content and the current time; the configured age limit is fixed. -/
def runRefreshes (delta : Int) :
    List ((String → Option (List Entry)) × Int) → DBState → DBState
  | [], db => db
  | (feeds, now) :: rest, db =>
    runRefreshes delta rest (exceptState (SubstackBot.update_articles feeds now delta db))

/-- bot.py line 255: `"".join(article.published.split(" ")[:-2])` — the
display form of the published string, all space-separated tokens but the
last two, joined without separator. -/
def publishedDisplay (published : String) : String :=
  let l := published.splitOn " "
  String.join (l.take (l.length - 2))

/-- The payload handed to channel.send for one article (bot.py lines
257-265), tagged with the id of the announced article row. -/
structure SentMsg where
  articleId : Nat
  author : String
  title : String
  article_url : String
  thumbnail_url : String
  published : String
deriving DecidableEq

/-- Outcome of one PostPending invocation: the messages delivered in
order, the store state left behind, and whether an exception propagated
(a failed send, or get_author returning None). -/
structure PostRes where
  sent : List SentMsg
  db : DBState
  aborted : Bool
deriving DecidableEq

/-- bot.py lines 270-271: `article.posted = True; session.commit()` —
set the posted flag of the row with this primary key. -/
def DBState.markPosted (db : DBState) (i : Nat) : DBState :=
  { db with
    articles := db.articles.map
      (fun ar => if ar.id == i then { ar with posted := true } else ar) }

/-- True when some row with this id is present and unposted. -/
def DBState.unpostedB (db : DBState) (i : Nat) : Bool :=
  db.articles.any (fun ar => ar.id == i && ar.posted == false)

/-- The loop body of SubstackBot.post_articles (bot.py lines 249-271)
over the snapshot of unposted rows: resolve the author through the FK
(None aborts with an AttributeError on author.username), format the
payload, send it (`sendOk` says whether channel.send succeeds; a failed
send raises, aborting the loop before the posted flag is touched), then
mark the row posted and commit. -/
def postLoop (sendOk : Article → Bool) :
    List Article → DBState → PostRes
  | [], db => ⟨[], db, false⟩
  | ar :: rest, db =>
    match db.authors.find? (fun au => au.id == ar.author_id) with
    | none => ⟨[], db, true⟩
    | some au =>
      if sendOk ar then
        let r := postLoop sendOk rest (db.markPosted ar.id)
        ⟨⟨ar.id, au.username, ar.title, ar.url, au.thumbnail,
          publishedDisplay ar.published⟩ :: r.sent, r.db, r.aborted⟩
      else ⟨[], db, true⟩

/-- SubstackBot.post_articles (bot.py lines 241-271): query the rows with
posted == False, then announce each in turn. -/
def SubstackBot.post_articles (sendOk : Article → Bool) (db : DBState) : PostRes :=
  postLoop sendOk (db.articles.filter (fun ar => ar.posted == false)) db

/-- Repeated scheduled PostPending ticks: each invocation supplies its own
send outcomes; the messages of all invocations are concatenated and the
store state is threaded through. -/
def postRuns : List (Article → Bool) → DBState → List SentMsg × DBState
  | [], db => ([], db)
  | o :: os, db =>
    let r := SubstackBot.post_articles o db
    let rest := postRuns os r.db
    (r.sent ++ rest.1, rest.2)

/-- Configuration read by the command handlers: the BOT_OWNER identity. -/
structure BotEnv where
  owner : String
deriving DecidableEq

/-- What a handler sent back on the channel: the help embed (bot.py
line 60) or a plain text message. -/
inductive Sent where
  | helpEmbed
  | text (msg : String)
deriving DecidableEq

/-- Outcome of one on_message call: the reply (none when the handler fell
through, crashed or exited), the store state, whether exit() was called,
and whether an uncaught exception escaped the handler. -/
structure MsgRes where
  sent : Option Sent
  db : DBState
  exited : Bool
  crashed : Bool
deriving DecidableEq

/-- Grouping of a character list at every space, keeping empty groups —
the semantics of Python str.split with the explicit separator " ". -/
def splitSp : List Char → List (List Char)
  | [] => [[]]
  | c :: cs =>
    match splitSp cs with
    | [] => [[c]]
    | g :: gs => if c = ' ' then [] :: g :: gs else (c :: g) :: gs

/-- Python `content.split(" ")` (bot.py line 50). -/
def pySplit (s : String) : List String :=
  (splitSp s.data).map (fun l => String.mk l)

/-- The ban gate of bot.py lines 74-75: the list comprehension over the
BannedUser table followed by the membership test on the message author. -/
def isBannedUser (db : DBState) (usr : String) : Bool :=
  (db.banned.map (fun u => u.discord_username)).contains usr

/-- The feed metadata read by Author.__init__: whether the feed dict has
a "title" key, and its "copyright" and "image"."href" values. -/
structure FeedMeta where
  hasTitle : Bool
  copyright : String
  imageHref : String

/-- The exceptions Author.__init__ can raise into the !subscribe
handler. -/
inductive SubErr where
  | integrity
  | valueErr (msg : String)
deriving DecidableEq

/-- Author.__init__ (models.py lines 40-60): fetch the feed, raise
ValueError when it has no "title" key, otherwise resolve username and
thumbnail and commit; the commit raises IntegrityError when the unique
constraint on subdomain or username is violated, leaving the store
unchanged. -/
def authorInit (feedMeta : String → FeedMeta) (sd : String) (db : DBState) :
    Except SubErr (Author × DBState) :=
  if (feedMeta sd).hasTitle = false then
    Except.error (SubErr.valueErr
      ("Unable to find author \x27" ++ sd ++
        "\x27 on Substack. Are you sure this is a subdomain?"))
  else if db.authors.any
      (fun a => a.subdomain == sd || a.username == (feedMeta sd).copyright) then
    Except.error SubErr.integrity
  else
    Except.ok (⟨db.nextAuthorId, (feedMeta sd).copyright, sd, (feedMeta sd).imageHref⟩,
      { db with
        authors := db.authors ++
          [⟨db.nextAuthorId, (feedMeta sd).copyright, sd, (feedMeta sd).imageHref⟩],
        nextAuthorId := db.nextAuthorId + 1 })

/-- bot.py lines 63-71: the !list reply, built by appending one line per
subscription to the header. os.linesep is a newline. -/
def listMessage (db : DBState) : String :=
  db.authors.foldl
    (fun m a => m ++ a.username ++ " // " ++ a.subdomain ++ "\n")
    "Subscriptions:\n"

/-- SubstackBot.on_message (bot.py lines 45-229): split the content on
spaces, take cmd[1] as the optional subdomain argument, dispatch !help
and !list, then the ban gate, then !subscribe / !unsubscribe, then the
owner-gated !ban / !unban / !exit. `usr` is the message author as the
transport delivers it. A branch in which Python raises an uncaught
exception (IndexError on a missing !ban / !unban argument, since the
`len(cmd) < 1` guard never fires, or AttributeError on q.username when
an IntegrityError was caused by the username column) yields
crashed = true with no reply. -/
def SubstackBot.on_message (env : BotEnv) (feedMeta : String → FeedMeta)
    (usr : String) (content : String) (db : DBState) : MsgRes :=
  let cmd := pySplit content
  let cmd0 := cmd.headD ""
  let subdomain : Option String := cmd[1]?
  if cmd0 == "!help" then ⟨some Sent.helpEmbed, db, false, false⟩
  else if cmd0 == "!list" then ⟨some (Sent.text (listMessage db)), db, false, false⟩
  else if isBannedUser db usr then
    ⟨some (Sent.text "Command is off limits to banned users."), db, false, false⟩
  else if cmd0 == "!subscribe" then
    match subdomain with
    | none =>
      ⟨some (Sent.text ("Please enter an author to subscribe to."
        ++ " Alternatively, use !help for help.")), db, false, false⟩
    | some sd =>
      match authorInit feedMeta sd db with
      | Except.ok (a, db2) =>
        ⟨some (Sent.text ("Subscribed to " ++ a.username ++ ".")), db2, false, false⟩
      | Except.error SubErr.integrity =>
        match db.authors.find? (fun a => a.subdomain == sd) with
        | some q =>
          ⟨some (Sent.text ("Already subscribed to " ++ q.username ++ ".")),
            db, false, false⟩
        | none => ⟨none, db, false, true⟩
      | Except.error (SubErr.valueErr m) =>
        ⟨some (Sent.text m), db, false, false⟩
  else if cmd0 == "!unsubscribe" then
    match subdomain with
    | none =>
      ⟨some (Sent.text ("Please enter an author to unsubcribe from."
        ++ " Alternatively, use !help for help.")), db, false, false⟩
    | some sd =>
      match db.authors.find? (fun a => a.subdomain == sd) with
      | some a =>
        ⟨some (Sent.text ("Unsubscribed from " ++ a.username ++ ".")),
          { db with authors := db.authors.eraseP (fun x => x.subdomain == sd) },
          false, false⟩
      | none =>
        ⟨some (Sent.text ("No subscription to \x27" ++ sd ++ "\x27 found.")),
          db, false, false⟩
  else
    let callerIsOwner := usr == env.owner
    if cmd0 == "!ban" && callerIsOwner then
      match subdomain with
      | none => ⟨none, db, false, true⟩
      | some target =>
        if db.banned.any (fun u => u.discord_username == target) then
          ⟨some (Sent.text (target ++ " is already banned.")), db, false, false⟩
        else
          ⟨some (Sent.text ("Added " ++ target ++ " to list of banned users.")),
            { db with banned := db.banned ++ [⟨target⟩] }, false, false⟩
    else if cmd0 == "!unban" && callerIsOwner then
      match subdomain with
      | none => ⟨none, db, false, true⟩
      | some target =>
        if db.banned.any (fun u => u.discord_username == target) then
          ⟨some (Sent.text ("Removed " ++ target ++ " from list of unbanned users.")),
            { db with banned := db.banned.eraseP (fun u => u.discord_username == target) },
            false, false⟩
        else
          ⟨some (Sent.text (target ++ " is not banned.")), db, false, false⟩
    else if cmd0 == "!exit" && callerIsOwner then ⟨none, db, true, false⟩
    else ⟨none, db, false, false⟩

/-! ### Helper definitions and concrete data for the proofs below -/

def auA : Author := ⟨1, "Alice", "alice", "thumbA"⟩

def auB : Author := ⟨2, "Bob", "bob", "thumbB"⟩

def dbOneAuthor : DBState := ⟨[auA], [], [], 2, 1⟩

def oldEntry : Entry := ⟨"Old", "Sun, 01 Jan 2023 00:00:00 GMT", 0, "uOld"⟩

def freshEntry : Entry := ⟨"Fresh", "Mon, 02 Jan 2023 00:00:00 GMT", 0, "uFresh"⟩

/-- True when the invocation ended with an exception propagating out. -/
def exceptFailed (r : Except DBState DBState) : Bool :=
  match r with
  | Except.ok _ => false
  | Except.error _ => true

def entryY : Entry := ⟨"Y", "Mon, 02 Jan 2023 00:00:00 GMT", 0, "uY"⟩

def dbC6 : DBState := ⟨[auA, auB], [], [], 3, 1⟩

def feedsC6 : String → Option (List Entry) :=
  fun s => if s == "bob" then some [entryY] else none

def auC : Author := ⟨3, "Carol", "carol", "thumbC"⟩

def dbC6w : DBState := ⟨[auB, auA, auC], [], [], 4, 1⟩

def feedsC6w : String → Option (List Entry) :=
  fun s => if s == "alice" then none else some []

/-- Global uniqueness of article titles in the store. -/
def titlesNodup (db : DBState) : Prop :=
  (db.articles.map (fun ar => ar.title)).Nodup

instance (db : DBState) : Decidable (titlesNodup db) := by
  unfold titlesNodup; infer_instance

def aliceX : Article := ⟨1, "X", "u1", "Mon, 02 Jan 2023 00:00:00 GMT", false, 1⟩

def dbTwoAuthors : DBState := ⟨[auA, auB], [aliceX], [], 3, 2⟩

def entryX : Entry := ⟨"X", "Mon, 02 Jan 2023 00:00:00 GMT", 0, "u2"⟩

def feedAlice : String → FeedMeta :=
  fun s => if s == "alice" then ⟨true, "Alice", "thumbA"⟩ else ⟨false, "", ""⟩

def artP : Article := ⟨1, "P", "uP", "Fri, 12 Mar 2021 14:00:00 GMT", false, 1⟩

def dbPost : DBState := ⟨[auA], [artP], [], 2, 2⟩

/-! ### Ingestion: provenance of persisted articles -/

theorem updateStep_provenance (au : Author) (now delta : Int) (db : DBState)
    (e : Entry) (ar : Article) (h : ar ∈ (au.updateStep now delta db e).articles) :
    ar ∈ db.articles ∨
      (daysBetween now e.publishedTime ≤ delta ∧ ar.title = e.title ∧
        ar.url = e.linkHref ∧ ar.published = e.published ∧
        ar.posted = false ∧ ar.author_id = au.id) := by
  unfold Author.updateStep at h
  split at h
  · exact Or.inl h
  next hgt =>
    split at h
    · exact Or.inl h
    · unfold DBState.insertArticle at h
      simp only [List.mem_append, List.mem_singleton] at h
      rcases h with h | h
      · exact Or.inl h
      · refine Or.inr ⟨Int.not_lt.mp hgt, ?_⟩
        subst h
        exact ⟨rfl, rfl, rfl, rfl, rfl⟩

theorem foldl_updateStep_provenance (au : Author) (now delta : Int) :
    ∀ (l : List Entry) (db : DBState) (ar : Article),
      ar ∈ (l.foldl (au.updateStep now delta) db).articles →
      ar ∈ db.articles ∨
        ∃ e, e ∈ l ∧ daysBetween now e.publishedTime ≤ delta ∧
          ar.title = e.title ∧ ar.url = e.linkHref ∧
          ar.published = e.published ∧ ar.posted = false ∧
          ar.author_id = au.id := by
  intro l
  induction l with
  | nil => intro db ar h; exact Or.inl h
  | cons e l ih =>
    intro db ar h
    simp only [List.foldl_cons] at h
    rcases ih _ ar h with h2 | ⟨e2, he2, rest⟩
    · rcases updateStep_provenance au now delta db e ar h2 with h3 | hcond
      · exact Or.inl h3
      · exact Or.inr ⟨e, List.mem_cons_self e l, hcond⟩
    · exact Or.inr ⟨e2, List.mem_cons_of_mem _ he2, rest⟩

/-- Every article present after Author.update_articles was either already
stored, or originates from a feed entry that survived the is_article
filter and the whole-day freshness filter, with its fields copied from
that entry and posted = false. -/
theorem update_articles_provenance (au : Author) (entries : List Entry)
    (now delta : Int) (db : DBState) (ar : Article)
    (h : ar ∈ (Author.update_articles au entries now delta db).articles) :
    ar ∈ db.articles ∨
      ∃ e, e ∈ entries ∧ isArticleEntry e = true ∧
        daysBetween now e.publishedTime ≤ delta ∧
        ar.title = e.title ∧ ar.url = e.linkHref ∧
        ar.published = e.published ∧ ar.posted = false ∧
        ar.author_id = au.id := by
  unfold Author.update_articles at h
  rcases foldl_updateStep_provenance au now delta _ db ar h with h2 | ⟨e, he, rest⟩
  · exact Or.inl h2
  · exact Or.inr ⟨e, (List.mem_filter.mp he).1, (List.mem_filter.mp he).2, rest⟩

theorem isArticleEntry_spec (e : Entry) (h : isArticleEntry e = true) :
    e.published ≠ "" ∧ e.title ≠ "Coming soon" := by
  unfold isArticleEntry at h
  simp only [Bool.and_eq_true, bne_iff_ne, ne_eq] at h
  exact h

/-! ### Concrete rows and entries used by witnesses and counterexamples -/

/-! ### Claims C4 and C5 -/

/-- Claim C4, counterexample: with a configured maximum of 30 days, a
valid entry whose age is 30 days and one hour — an age exceeding the
configured maximum — is still persisted by Author.update_articles,
because the code compares `posted_delta.days`, the age truncated to
whole days, against the limit. -/
theorem c4_counterexample :
    2595600 - oldEntry.publishedTime > 30 * 86400 ∧
    isArticleEntry oldEntry = true ∧
    (Author.update_articles auA [oldEntry] 2595600 30 dbOneAuthor).articles.countP
      (fun ar => ar.title == "Old") = 1 := by decide

/-- Claim C4 (amended): for every feed entry whose age in whole days
(the floor of (now − published) / 86400, Python timedelta.days) strictly
exceeds the configured maximum article age, update_articles never
persists an Article for it: every newly persisted Article originates
from an entry whose whole-day age is at most the maximum. An entry whose
exact age exceeds the maximum by less than a full day can still be
persisted. -/
theorem c4_freshness_floor_days (au : Author) (entries : List Entry)
    (now delta : Int) (db : DBState) (ar : Article)
    (h1 : ar ∈ (Author.update_articles au entries now delta db).articles)
    (h2 : ar ∉ db.articles) :
    ∃ e, e ∈ entries ∧ daysBetween now e.publishedTime ≤ delta ∧
      ar.title = e.title ∧ ar.url = e.linkHref ∧ ar.published = e.published := by
  rcases update_articles_provenance au entries now delta db ar h1 with h | ⟨e, he, _, hd, ht, hu, hp, _⟩
  · exact absurd h h2
  · exact ⟨e, he, hd, ht, hu, hp⟩

theorem c4_freshness_floor_days_witness :
    ∃ e, e ∈ [freshEntry] ∧ daysBetween 3600 e.publishedTime ≤ 30 ∧
      (Article.mk 1 "Fresh" "uFresh" "Mon, 02 Jan 2023 00:00:00 GMT" false 1).title = e.title ∧
      (Article.mk 1 "Fresh" "uFresh" "Mon, 02 Jan 2023 00:00:00 GMT" false 1).url = e.linkHref ∧
      (Article.mk 1 "Fresh" "uFresh" "Mon, 02 Jan 2023 00:00:00 GMT" false 1).published = e.published :=
  c4_freshness_floor_days auA [freshEntry] 3600 30 dbOneAuthor
    (Article.mk 1 "Fresh" "uFresh" "Mon, 02 Jan 2023 00:00:00 GMT" false 1)
    (by decide) (by decide)

/-! ### Claim C6: a fetch failure aborts the rest of the refresh cycle -/

theorem updateAuthors_post_irrelevant (feeds : String → Option (List Entry))
    (now delta : Int) (bad : Author) (post : List Author)
    (hbad : feeds bad.subdomain = none) :
    ∀ (pre : List Author) (db : DBState),
      (∀ a ∈ pre, (feeds a.subdomain).isSome = true) →
      updateAuthors feeds now delta (pre ++ bad :: post) db =
        updateAuthors feeds now delta (pre ++ [bad]) db := by
  intro pre
  induction pre with
  | nil =>
    intro db _
    simp only [List.nil_append]
    unfold updateAuthors
    rw [hbad]
  | cons a pre ih =>
    intro db hpre
    obtain ⟨entries, he⟩ := Option.isSome_iff_exists.mp (hpre a (List.mem_cons_self a pre))
    simp only [List.cons_append]
    unfold updateAuthors
    rw [he]
    exact ih _ (fun x hx => hpre x (List.mem_cons_of_mem _ hx))

theorem updateAuthors_err (feeds : String → Option (List Entry))
    (now delta : Int) (bad : Author) (hbad : feeds bad.subdomain = none) :
    ∀ (pre : List Author) (db : DBState),
      (∀ a ∈ pre, (feeds a.subdomain).isSome = true) →
      exceptFailed (updateAuthors feeds now delta (pre ++ [bad]) db) = true := by
  intro pre
  induction pre with
  | nil =>
    intro db _
    simp only [List.nil_append]
    unfold updateAuthors
    rw [hbad]
    rfl
  | cons a pre ih =>
    intro db hpre
    obtain ⟨entries, he⟩ := Option.isSome_iff_exists.mp (hpre a (List.mem_cons_self a pre))
    simp only [List.cons_append]
    unfold updateAuthors
    rw [he]
    exact ih _ (fun x hx => hpre x (List.mem_cons_of_mem _ hx))

/-- Claim C6, counterexample: with two subscribed sources, the fetch for
the first source (alice) raises; the second source (bob) offers a valid
fresh entry "Y". update_articles has no handler around the per-author
loop, so the exception propagates (the result is an error) and bob is
never processed: no Article titled "Y" is persisted in that cycle. -/
theorem c6_counterexample :
    isArticleEntry entryY = true ∧
    daysBetween 3600 entryY.publishedTime ≤ 30 ∧
    feedsC6 "alice" = none ∧
    exceptFailed (SubstackBot.update_articles feedsC6 3600 30 dbC6) = true ∧
    (exceptState (SubstackBot.update_articles feedsC6 3600 30 dbC6)).articles.countP
      (fun ar => ar.title == "Y") = 0 := by decide

/-- Claim C6 (amended): a fetch failure raised while processing one
Source is not caught: it propagates out of update_articles and aborts
the rest of that cycle. Sources after the failing one are never
processed (the result is the same as if they were not in the registry at
all), while Sources before it keep the articles already committed. -/
theorem c6_fetch_failure_aborts (feeds : String → Option (List Entry))
    (now delta : Int) (pre : List Author) (bad : Author) (post : List Author)
    (db : DBState) (hsplit : db.authors = pre ++ bad :: post)
    (hpre : ∀ a ∈ pre, (feeds a.subdomain).isSome = true)
    (hbad : feeds bad.subdomain = none) :
    exceptFailed (SubstackBot.update_articles feeds now delta db) = true ∧
    SubstackBot.update_articles feeds now delta db =
      updateAuthors feeds now delta (pre ++ [bad]) db := by
  unfold SubstackBot.update_articles
  rw [hsplit]
  have heq := updateAuthors_post_irrelevant feeds now delta bad post hbad pre db hpre
  rw [heq]
  exact ⟨updateAuthors_err feeds now delta bad hbad pre db hpre, rfl⟩

theorem c6_fetch_failure_aborts_witness :
    exceptFailed (SubstackBot.update_articles feedsC6w 3600 30 dbC6w) = true ∧
    SubstackBot.update_articles feedsC6w 3600 30 dbC6w =
      updateAuthors feedsC6w 3600 30 [auB, auA] dbC6w :=
  c6_fetch_failure_aborts feedsC6w 3600 30 [auB] auA [auC] dbC6w
    (by decide) (by decide) (by decide)

/-! ### Claim C3: deduplication is by title, globally across sources -/

theorem updateStep_titlesNodup (au : Author) (now delta : Int) (db : DBState)
    (e : Entry) (h : titlesNodup db) : titlesNodup (au.updateStep now delta db e) := by
  unfold Author.updateStep
  split
  · exact h
  split
  · exact h
  next hfind =>
    unfold DBState.insertArticle titlesNodup
    simp only [List.map_append, List.map_cons, List.map_nil]
    rw [List.nodup_append]
    refine ⟨h, List.nodup_singleton _, ?_⟩
    rw [List.disjoint_singleton]
    intro hmem
    rcases List.mem_map.mp hmem with ⟨ar, har, htit⟩
    apply hfind
    rw [List.find?_isSome]
    exact ⟨ar, har, by simp [htit]⟩

theorem foldl_updateStep_titlesNodup (au : Author) (now delta : Int) :
    ∀ (l : List Entry) (db : DBState), titlesNodup db →
      titlesNodup (l.foldl (au.updateStep now delta) db) := by
  intro l
  induction l with
  | nil => intro db h; exact h
  | cons e l ih =>
    intro db h
    simp only [List.foldl_cons]
    exact ih _ (updateStep_titlesNodup au now delta db e h)

theorem update_articles_titlesNodup (au : Author) (entries : List Entry)
    (now delta : Int) (db : DBState) (h : titlesNodup db) :
    titlesNodup (Author.update_articles au entries now delta db) :=
  foldl_updateStep_titlesNodup au now delta _ db h

theorem updateAuthors_titlesNodup (feeds : String → Option (List Entry))
    (now delta : Int) : ∀ (l : List Author) (db : DBState), titlesNodup db →
      titlesNodup (exceptState (updateAuthors feeds now delta l db)) := by
  intro l
  induction l with
  | nil => intro db h; exact h
  | cons au rest ih =>
    intro db h
    unfold updateAuthors
    cases hf : feeds au.subdomain with
    | none => exact h
    | some entries =>
      exact ih _ (update_articles_titlesNodup au entries now delta db h)

theorem runRefreshes_titlesNodup (delta : Int) :
    ∀ (ticks : List ((String → Option (List Entry)) × Int)) (db : DBState),
      titlesNodup db → titlesNodup (runRefreshes delta ticks db) := by
  intro ticks
  induction ticks with
  | nil => intro db h; exact h
  | cons tick rest ih =>
    intro db h
    cases tick with
    | mk feeds now =>
      exact ih _ (updateAuthors_titlesNodup feeds now delta db.authors db h)

theorem countP_title_le_one (db : DBState) (h : titlesNodup db) (t : String) :
    db.articles.countP (fun ar => ar.title == t) ≤ 1 := by
  have h1 : db.articles.countP (fun ar => ar.title == t) =
      (db.articles.map (fun ar => ar.title)).countP (fun s => s == t) := by
    rw [List.countP_map]
    rfl
  rw [h1]
  have h2 := List.nodup_iff_count_le_one.mp h t
  rw [List.count] at h2
  exact h2

/-- Claim C3, counterexample: source Bob's feed offers a valid, fresh
entry titled "X"; no Article with owning source Bob and title "X" exists,
yet update_articles for Bob refuses to insert it, because the
check-before-insert (models.py line 92) matches on title alone and finds
the Article titled "X" that belongs to source Alice. Equal titles under
different Sources therefore cannot coexist. -/
theorem c3_counterexample :
    isArticleEntry entryX = true ∧
    daysBetween 3600 entryX.publishedTime ≤ 30 ∧
    dbTwoAuthors.articles.countP (fun ar => ar.author_id == 2 && ar.title == "X") = 0 ∧
    (Author.update_articles auB [entryX] 3600 30 dbTwoAuthors).articles.countP
      (fun ar => ar.author_id == 2 && ar.title == "X") = 0 := by decide

/-- Claim C3 (amended): ingestion checks for an existing Article with the
same title across all Sources before inserting, so article titles stay
globally unique across any number of RefreshAll invocations; in
particular at most one Article exists for every (Source, title) pair,
and equal titles under different Sources cannot both be persisted. -/
theorem c3_global_title_dedup (db : DBState) (h : titlesNodup db)
    (delta : Int) (ticks : List ((String → Option (List Entry)) × Int))
    (sid : Nat) (t : String) :
    titlesNodup (runRefreshes delta ticks db) ∧
    (runRefreshes delta ticks db).articles.countP
      (fun ar => ar.author_id == sid && ar.title == t) ≤ 1 := by
  have hn := runRefreshes_titlesNodup delta ticks db h
  refine ⟨hn, le_trans (List.countP_mono_left ?_) (countP_title_le_one _ hn t)⟩
  intro ar _ har
  exact (Bool.and_eq_true _ _).mp har |>.2

theorem c3_global_title_dedup_witness :
    titlesNodup (runRefreshes 30 [] dbTwoAuthors) ∧
    (runRefreshes 30 [] dbTwoAuthors).articles.countP
      (fun ar => ar.author_id == 1 && ar.title == "X") ≤ 1 :=
  c3_global_title_dedup dbTwoAuthors (by decide) 30 [] 1 "X"

/-- Claim C5: every Article persisted by update_articles originates from
an entry that has a publication timestamp and whose title is not the
"Coming soon" sentinel; entries failing the validity filter never get an
Article persisted for them. -/
theorem c5_validity_filter (au : Author) (entries : List Entry)
    (now delta : Int) (db : DBState) (ar : Article)
    (h1 : ar ∈ (Author.update_articles au entries now delta db).articles)
    (h2 : ar ∉ db.articles) :
    ∃ e, e ∈ entries ∧ e.published ≠ "" ∧ e.title ≠ "Coming soon" ∧
      ar.title = e.title ∧ ar.url = e.linkHref ∧ ar.published = e.published := by
  rcases update_articles_provenance au entries now delta db ar h1 with h | ⟨e, he, hv, _, ht, hu, hp, _⟩
  · exact absurd h h2
  · rcases isArticleEntry_spec e hv with ⟨hpub, htitle⟩
    exact ⟨e, he, hpub, htitle, ht, hu, hp⟩

/-! ### Claims C7 and C8: the subscribe path -/

/-- Reduction of on_message to the !subscribe handler for a non-banned
caller whose message splits into the command and one argument. -/
theorem on_message_subscribe (env : BotEnv) (feedMeta : String → FeedMeta)
    (usr : String) (sd : String) (content : String) (db : DBState)
    (hsplit : pySplit content = ["!subscribe", sd])
    (hban : isBannedUser db usr = false) :
    SubstackBot.on_message env feedMeta usr content db =
      (match authorInit feedMeta sd db with
       | Except.ok (a, db2) =>
         ⟨some (Sent.text ("Subscribed to " ++ a.username ++ ".")), db2, false, false⟩
       | Except.error SubErr.integrity =>
         (match db.authors.find? (fun a => a.subdomain == sd) with
          | some q =>
            ⟨some (Sent.text ("Already subscribed to " ++ q.username ++ ".")),
              db, false, false⟩
          | none => ⟨none, db, false, true⟩)
       | Except.error (SubErr.valueErr m) =>
         ⟨some (Sent.text m), db, false, false⟩) := by
  unfold SubstackBot.on_message
  rw [hsplit]
  simp [hban]

/-- Claim C7: subscribing to an identifier that is already subscribed
(exactly one Source row with that subdomain, and the feed still
resolves) leaves the store unchanged — the one row survives uncorrupted
— and replies with the duplicate-subscription message naming the
existing row, not a raw storage fault. -/
theorem c7_duplicate_subscribe (env : BotEnv) (feedMeta : String → FeedMeta)
    (usr : String) (sd : String) (content : String) (db : DBState)
    (hsplit : pySplit content = ["!subscribe", sd])
    (hban : isBannedUser db usr = false)
    (hmeta : (feedMeta sd).hasTitle = true)
    (hdup : db.authors.countP (fun a => a.subdomain == sd) = 1) :
    ∃ q, db.authors.find? (fun a => a.subdomain == sd) = some q ∧
      SubstackBot.on_message env feedMeta usr content db =
        ⟨some (Sent.text ("Already subscribed to " ++ q.username ++ ".")),
          db, false, false⟩ := by
  have hex : ∃ a ∈ db.authors, (fun a => a.subdomain == sd) a = true := by
    apply List.countP_pos_iff.mp
    omega
  obtain ⟨a0, ha0, hpa0⟩ := hex
  have hany : db.authors.any
      (fun a => a.subdomain == sd || a.username == (feedMeta sd).copyright) = true :=
    List.any_eq_true.mpr ⟨a0, ha0, by simp_all⟩
  have hsome : (db.authors.find? (fun a => a.subdomain == sd)).isSome = true :=
    List.find?_isSome.mpr ⟨a0, ha0, hpa0⟩
  obtain ⟨q, hq⟩ := Option.isSome_iff_exists.mp hsome
  refine ⟨q, hq, ?_⟩
  rw [on_message_subscribe env feedMeta usr sd content db hsplit hban]
  unfold authorInit
  rw [hmeta, hany, hq]
  simp

theorem c7_duplicate_subscribe_witness :
    ∃ q, dbOneAuthor.authors.find? (fun a => a.subdomain == "alice") = some q ∧
      SubstackBot.on_message ⟨"owner"⟩ feedAlice "usr" "!subscribe alice" dbOneAuthor =
        ⟨some (Sent.text ("Already subscribed to " ++ q.username ++ ".")),
          dbOneAuthor, false, false⟩ :=
  c7_duplicate_subscribe ⟨"owner"⟩ feedAlice "usr" "alice" "!subscribe alice"
    dbOneAuthor (by decide) (by decide) (by decide) (by decide)

/-- Claim C8: subscribing to an identifier whose feed resolution fails
(the fetched feed has no title field) leaves the Source registry — the
whole store — unchanged, and replies with the not-found message. -/
theorem c8_not_found_subscribe (env : BotEnv) (feedMeta : String → FeedMeta)
    (usr : String) (sd : String) (content : String) (db : DBState)
    (hsplit : pySplit content = ["!subscribe", sd])
    (hban : isBannedUser db usr = false)
    (hmeta : (feedMeta sd).hasTitle = false) :
    SubstackBot.on_message env feedMeta usr content db =
      ⟨some (Sent.text ("Unable to find author \x27" ++ sd ++
        "\x27 on Substack. Are you sure this is a subdomain?")), db, false, false⟩ := by
  rw [on_message_subscribe env feedMeta usr sd content db hsplit hban]
  unfold authorInit
  rw [hmeta]
  simp

theorem c8_not_found_subscribe_witness :
    SubstackBot.on_message ⟨"owner"⟩ feedAlice "usr" "!subscribe nosuch" dbOneAuthor =
      ⟨some (Sent.text ("Unable to find author \x27nosuch\x27 on Substack."
        ++ " Are you sure this is a subdomain?")), dbOneAuthor, false, false⟩ := by
  have h := c8_not_found_subscribe ⟨"owner"⟩ feedAlice "usr" "nosuch"
    "!subscribe nosuch" dbOneAuthor (by decide) (by decide) (by decide)
  simpa using h

/-! ### Claims C9 and C10: the ban gate and the commands before it -/

/-- Claim C9: a banned caller issuing any of the four mutating commands
(!subscribe, !unsubscribe, !ban, !unban) is refused: the store is left
untouched and the reply is the banned-users denial. -/
theorem c9_banned_denied (env : BotEnv) (feedMeta : String → FeedMeta)
    (usr : String) (content : String) (db : DBState)
    (hban : isBannedUser db usr = true)
    (hcmd : (pySplit content).headD "" = "!subscribe" ∨
      (pySplit content).headD "" = "!unsubscribe" ∨
      (pySplit content).headD "" = "!ban" ∨
      (pySplit content).headD "" = "!unban") :
    SubstackBot.on_message env feedMeta usr content db =
      ⟨some (Sent.text "Command is off limits to banned users."), db, false, false⟩ := by
  unfold SubstackBot.on_message
  have h1 : ((pySplit content).headD "" == "!help") = false := by
    rcases hcmd with h | h | h | h <;> rw [h] <;> decide
  have h2 : ((pySplit content).headD "" == "!list") = false := by
    rcases hcmd with h | h | h | h <;> rw [h] <;> decide
  simp only [h1, h2, hban, Bool.false_eq_true, if_false, if_true]

theorem c9_banned_denied_witness :
    SubstackBot.on_message ⟨"owner"⟩ feedAlice "mallory" "!subscribe alice"
      ⟨[auA], [], [⟨"mallory"⟩], 2, 1⟩ =
      ⟨some (Sent.text "Command is off limits to banned users."),
        ⟨[auA], [], [⟨"mallory"⟩], 2, 1⟩, false, false⟩ :=
  c9_banned_denied ⟨"owner"⟩ feedAlice "mallory" "!subscribe alice"
    ⟨[auA], [], [⟨"mallory"⟩], 2, 1⟩ (by decide) (by decide)

theorem listMessage_foldl_pre (l : List Author) :
    ∀ s : String, ∃ t : String,
      l.foldl (fun m a => m ++ a.username ++ " // " ++ a.subdomain ++ "\n") s
        = s ++ t := by
  induction l with
  | nil => intro s; exact ⟨"", by simp⟩
  | cons a l ih =>
    intro s
    obtain ⟨t, ht⟩ := ih (s ++ a.username ++ " // " ++ a.subdomain ++ "\n")
    refine ⟨a.username ++ " // " ++ a.subdomain ++ "\n" ++ t, ?_⟩
    simp only [List.foldl_cons, ht]
    simp [String.append_assoc]

theorem listMessage_ne_denial (db : DBState) :
    listMessage db ≠ "Command is off limits to banned users." := by
  obtain ⟨t, ht⟩ := listMessage_foldl_pre db.authors "Subscriptions:\n"
  unfold listMessage
  rw [ht]
  intro h
  have hd := congrArg String.data h
  rw [String.data_append] at hd
  simp only [String.data] at hd
  injection hd with h1 _
  exact absurd h1 (by decide)

/-- Claim C10: !help and !list are dispatched before the ban gate, so a
banned caller issuing them gets the normal reply — the help embed or the
subscription list, which is never the denial text — and the store is
untouched. -/
theorem c10_help_list_before_ban (env : BotEnv) (feedMeta : String → FeedMeta)
    (usr : String) (content : String) (db : DBState)
    (hban : isBannedUser db usr = true) :
    ((pySplit content).headD "" = "!help" →
      SubstackBot.on_message env feedMeta usr content db =
        ⟨some Sent.helpEmbed, db, false, false⟩) ∧
    ((pySplit content).headD "" = "!list" →
      SubstackBot.on_message env feedMeta usr content db =
        ⟨some (Sent.text (listMessage db)), db, false, false⟩ ∧
      Sent.text (listMessage db) ≠
        Sent.text "Command is off limits to banned users.") := by
  constructor
  · intro h
    unfold SubstackBot.on_message
    rw [List.headD_eq_head?] at h
    simp [h]
  · intro h
    refine ⟨?_, ?_⟩
    · unfold SubstackBot.on_message
      rw [List.headD_eq_head?] at h
      simp [h]
    · intro hc
      injection hc with hc
      exact listMessage_ne_denial db hc

theorem c10_help_list_before_ban_witness :
    ((pySplit "!help x").headD "" = "!help" →
      SubstackBot.on_message ⟨"owner"⟩ feedAlice "mallory" "!help x"
        ⟨[auA], [], [⟨"mallory"⟩], 2, 1⟩ =
        ⟨some Sent.helpEmbed, ⟨[auA], [], [⟨"mallory"⟩], 2, 1⟩, false, false⟩) ∧
    ((pySplit "!help x").headD "" = "!list" →
      SubstackBot.on_message ⟨"owner"⟩ feedAlice "mallory" "!help x"
        ⟨[auA], [], [⟨"mallory"⟩], 2, 1⟩ =
        ⟨some (Sent.text (listMessage ⟨[auA], [], [⟨"mallory"⟩], 2, 1⟩)),
          ⟨[auA], [], [⟨"mallory"⟩], 2, 1⟩, false, false⟩ ∧
      Sent.text (listMessage ⟨[auA], [], [⟨"mallory"⟩], 2, 1⟩) ≠
        Sent.text "Command is off limits to banned users.") :=
  c10_help_list_before_ban ⟨"owner"⟩ feedAlice "mallory" "!help x"
    ⟨[auA], [], [⟨"mallory"⟩], 2, 1⟩ (by decide)

theorem c5_validity_filter_witness :
    ∃ e, e ∈ [freshEntry] ∧ e.published ≠ "" ∧ e.title ≠ "Coming soon" ∧
      (Article.mk 1 "Fresh" "uFresh" "Mon, 02 Jan 2023 00:00:00 GMT" false 1).title = e.title ∧
      (Article.mk 1 "Fresh" "uFresh" "Mon, 02 Jan 2023 00:00:00 GMT" false 1).url = e.linkHref ∧
      (Article.mk 1 "Fresh" "uFresh" "Mon, 02 Jan 2023 00:00:00 GMT" false 1).published = e.published :=
  c5_validity_filter auA [freshEntry] 7200 30 dbOneAuthor
    (Article.mk 1 "Fresh" "uFresh" "Mon, 02 Jan 2023 00:00:00 GMT" false 1)
    (by decide) (by decide)

/-! ### Claims C1 and C2: the at-most-once posted state machine -/

theorem any_congr_on {α : Type} (l : List α) (p q : α → Bool)
    (h : ∀ a ∈ l, p a = q a) : l.any p = l.any q := by
  induction l with
  | nil => rfl
  | cons a l ih =>
    simp only [List.any_cons, h a (List.mem_cons_self a l)]
    rw [ih (fun x hx => h x (List.mem_cons_of_mem _ hx))]

theorem markPosted_authors (db : DBState) (i : Nat) :
    (db.markPosted i).authors = db.authors := rfl

theorem markPosted_ids (db : DBState) (i : Nat) :
    (db.markPosted i).articles.map (fun a => a.id) =
      db.articles.map (fun a => a.id) := by
  unfold DBState.markPosted
  rw [List.map_map]
  apply List.map_congr_left
  intro a _
  simp only [Function.comp_apply]
  split <;> rfl

theorem markPosted_unposted_self (db : DBState) (i : Nat) :
    (db.markPosted i).unpostedB i = false := by
  unfold DBState.markPosted DBState.unpostedB
  simp only [List.any_map]
  rw [List.any_eq_false]
  intro a _
  simp only [Function.comp_apply]
  by_cases h : (a.id == i) = true
  · simp [h]
  · simp [h]

theorem markPosted_unposted_mono (db : DBState) (i j : Nat)
    (h : db.unpostedB j = false) : (db.markPosted i).unpostedB j = false := by
  unfold DBState.unpostedB at h
  have hall := List.any_eq_false.mp h
  unfold DBState.markPosted DBState.unpostedB
  simp only [List.any_map]
  rw [List.any_eq_false]
  intro a ha
  have ha2 := hall a ha
  simp only [Function.comp_apply]
  by_cases hid : (a.id == i) = true
  · simp [hid]
  · simpa [hid] using ha2

theorem markPosted_unposted_ne (db : DBState) (i j : Nat)
    (h : (i == j) = false) : (db.markPosted i).unpostedB j = db.unpostedB j := by
  unfold DBState.markPosted DBState.unpostedB
  simp only [List.any_map]
  apply any_congr_on
  intro a _
  simp only [Function.comp_apply]
  by_cases hid : (a.id == i) = true
  · have hai : a.id = i := eq_of_beq hid
    have haj : (a.id == j) = false := by
      rw [hai]
      exact h
    simp [hid, haj]
  · simp [hid]

theorem postLoop_cons_none (sendOk : Article → Bool) (ar : Article)
    (rest : List Article) (db : DBState)
    (h : db.authors.find? (fun au => au.id == ar.author_id) = none) :
    postLoop sendOk (ar :: rest) db = ⟨[], db, true⟩ := by
  unfold postLoop
  rw [h]

theorem postLoop_cons_skip (sendOk : Article → Bool) (ar : Article)
    (rest : List Article) (db : DBState) (au : Author)
    (h : db.authors.find? (fun au => au.id == ar.author_id) = some au)
    (hs : sendOk ar = false) :
    postLoop sendOk (ar :: rest) db = ⟨[], db, true⟩ := by
  unfold postLoop
  rw [h]
  simp [hs]

theorem postLoop_cons_send (sendOk : Article → Bool) (ar : Article)
    (rest : List Article) (db : DBState) (au : Author)
    (h : db.authors.find? (fun au => au.id == ar.author_id) = some au)
    (hs : sendOk ar = true) :
    postLoop sendOk (ar :: rest) db =
      ⟨⟨ar.id, au.username, ar.title, ar.url, au.thumbnail,
          publishedDisplay ar.published⟩ ::
          (postLoop sendOk rest (db.markPosted ar.id)).sent,
        (postLoop sendOk rest (db.markPosted ar.id)).db,
        (postLoop sendOk rest (db.markPosted ar.id)).aborted⟩ := by
  simp only [postLoop]
  rw [h]
  simp [hs]

theorem postLoop_authors (sendOk : Article → Bool) :
    ∀ (l : List Article) (db : DBState),
      (postLoop sendOk l db).db.authors = db.authors := by
  intro l
  induction l with
  | nil => intro db; rfl
  | cons ar rest ih =>
    intro db
    cases hfind : db.authors.find? (fun au => au.id == ar.author_id) with
    | none => rw [postLoop_cons_none sendOk ar rest db hfind]
    | some au =>
      by_cases hs : sendOk ar = true
      · rw [postLoop_cons_send sendOk ar rest db au hfind hs]
        exact ih (db.markPosted ar.id)
      · rw [postLoop_cons_skip sendOk ar rest db au hfind (by simpa using hs)]

theorem postLoop_ids (sendOk : Article → Bool) :
    ∀ (l : List Article) (db : DBState),
      (postLoop sendOk l db).db.articles.map (fun a => a.id) =
        db.articles.map (fun a => a.id) := by
  intro l
  induction l with
  | nil => intro db; rfl
  | cons ar rest ih =>
    intro db
    cases hfind : db.authors.find? (fun au => au.id == ar.author_id) with
    | none => rw [postLoop_cons_none sendOk ar rest db hfind]
    | some au =>
      by_cases hs : sendOk ar = true
      · rw [postLoop_cons_send sendOk ar rest db au hfind hs]
        exact (ih (db.markPosted ar.id)).trans (markPosted_ids db ar.id)
      · rw [postLoop_cons_skip sendOk ar rest db au hfind (by simpa using hs)]

theorem postLoop_unposted_mono (sendOk : Article → Bool) (i : Nat) :
    ∀ (l : List Article) (db : DBState), db.unpostedB i = false →
      (postLoop sendOk l db).db.unpostedB i = false := by
  intro l
  induction l with
  | nil => intro db h; exact h
  | cons ar rest ih =>
    intro db h
    cases hfind : db.authors.find? (fun au => au.id == ar.author_id) with
    | none => rw [postLoop_cons_none sendOk ar rest db hfind]; exact h
    | some au =>
      by_cases hs : sendOk ar = true
      · rw [postLoop_cons_send sendOk ar rest db au hfind hs]
        exact ih _ (markPosted_unposted_mono db ar.id i h)
      · rw [postLoop_cons_skip sendOk ar rest db au hfind (by simpa using hs)]
        exact h

theorem postLoop_countSent_le (sendOk : Article → Bool) (i : Nat) :
    ∀ (l : List Article) (db : DBState),
      (postLoop sendOk l db).sent.countP (fun m => m.articleId == i) ≤
        l.countP (fun a => a.id == i) := by
  intro l
  induction l with
  | nil => intro db; exact Nat.le_refl 0
  | cons ar rest ih =>
    intro db
    cases hfind : db.authors.find? (fun au => au.id == ar.author_id) with
    | none =>
      rw [postLoop_cons_none sendOk ar rest db hfind]
      exact Nat.zero_le _
    | some au =>
      by_cases hs : sendOk ar = true
      · rw [postLoop_cons_send sendOk ar rest db au hfind hs]
        simp only [List.countP_cons]
        have hle := ih (db.markPosted ar.id)
        by_cases hid : (ar.id == i) = true <;> simp only [hid, if_true, if_false] <;> omega
      · rw [postLoop_cons_skip sendOk ar rest db au hfind (by simpa using hs)]
        exact Nat.zero_le _

theorem postLoop_sent_marked (sendOk : Article → Bool) (i : Nat) :
    ∀ (l : List Article) (db : DBState) (m : SentMsg),
      m ∈ (postLoop sendOk l db).sent → m.articleId = i →
      (postLoop sendOk l db).db.unpostedB i = false := by
  intro l
  induction l with
  | nil => intro db m hm _; simp [postLoop] at hm
  | cons ar rest ih =>
    intro db m hm hi
    cases hfind : db.authors.find? (fun au => au.id == ar.author_id) with
    | none =>
      rw [postLoop_cons_none sendOk ar rest db hfind] at hm
      simp at hm
    | some au =>
      by_cases hs : sendOk ar = true
      · rw [postLoop_cons_send sendOk ar rest db au hfind hs] at hm ⊢
        rcases List.mem_cons.mp hm with h1 | h1
        · have har : ar.id = i := by rw [← hi, h1]
          rw [← har]
          exact postLoop_unposted_mono sendOk ar.id rest _
            (markPosted_unposted_self db ar.id)
        · exact ih (db.markPosted ar.id) m h1 hi
      · rw [postLoop_cons_skip sendOk ar rest db au hfind (by simpa using hs)] at hm
        simp at hm

theorem postLoop_no_send (sendOk : Article → Bool) (i : Nat) :
    ∀ (l : List Article) (db : DBState),
      (∀ x ∈ l, (x.id == i) = true → sendOk x = false) →
      (postLoop sendOk l db).db.unpostedB i = db.unpostedB i := by
  intro l
  induction l with
  | nil => intro db _; rfl
  | cons ar rest ih =>
    intro db h
    cases hfind : db.authors.find? (fun au => au.id == ar.author_id) with
    | none => rw [postLoop_cons_none sendOk ar rest db hfind]
    | some au =>
      by_cases hs : sendOk ar = true
      · rw [postLoop_cons_send sendOk ar rest db au hfind hs]
        have hid : (ar.id == i) = false := by
          by_cases hc : (ar.id == i) = true
          · have hfalse := h ar (List.mem_cons_self ar rest) hc
            rw [hfalse] at hs
            exact absurd hs (by simp)
          · simpa using hc
        rw [ih _ (fun x hx => h x (List.mem_cons_of_mem _ hx))]
        exact markPosted_unposted_ne db ar.id i hid
      · rw [postLoop_cons_skip sendOk ar rest db au hfind (by simpa using hs)]

theorem postLoop_mark_implies_sent (sendOk : Article → Bool) (i : Nat) :
    ∀ (l : List Article) (db : DBState),
      (postLoop sendOk l db).db.unpostedB i ≠ db.unpostedB i →
      ∃ m ∈ (postLoop sendOk l db).sent, m.articleId = i := by
  intro l
  induction l with
  | nil => intro db h; exact absurd rfl h
  | cons ar rest ih =>
    intro db h
    cases hfind : db.authors.find? (fun au => au.id == ar.author_id) with
    | none =>
      rw [postLoop_cons_none sendOk ar rest db hfind] at h
      exact absurd rfl h
    | some au =>
      by_cases hs : sendOk ar = true
      · rw [postLoop_cons_send sendOk ar rest db au hfind hs] at h ⊢
        by_cases hid : (ar.id == i) = true
        · exact ⟨_, List.mem_cons_self _ _, eq_of_beq hid⟩
        · have hne : (ar.id == i) = false := by simpa using hid
          have hmark := markPosted_unposted_ne db ar.id i hne
          rw [← hmark] at h
          obtain ⟨m, hm, hmi⟩ := ih (db.markPosted ar.id) h
          exact ⟨m, List.mem_cons_of_mem _ hm, hmi⟩
      · rw [postLoop_cons_skip sendOk ar rest db au hfind (by simpa using hs)] at h
        exact absurd rfl h

theorem postLoop_all_sent (sendOk : Article → Bool) :
    ∀ (l : List Article) (db : DBState),
      (∀ x ∈ l, sendOk x = true) →
      (∀ x ∈ l, (db.authors.find? (fun au => au.id == x.author_id)).isSome = true) →
      ∀ x ∈ l, ∃ m ∈ (postLoop sendOk l db).sent, m.articleId = x.id := by
  intro l
  induction l with
  | nil => intro db _ _ x hx; simp at hx
  | cons ar rest ih =>
    intro db hsend hfind x hx
    obtain ⟨au, hau⟩ := Option.isSome_iff_exists.mp
      (hfind ar (List.mem_cons_self ar rest))
    have hs : sendOk ar = true := hsend ar (List.mem_cons_self ar rest)
    rw [postLoop_cons_send sendOk ar rest db au hau hs]
    rcases List.mem_cons.mp hx with h1 | h1
    · subst h1
      exact ⟨_, List.mem_cons_self _ _, rfl⟩
    · have hfind2 : ∀ y ∈ rest,
          (((db.markPosted ar.id).authors).find?
            (fun au => au.id == y.author_id)).isSome = true := by
        intro y hy
        rw [markPosted_authors]
        exact hfind y (List.mem_cons_of_mem _ hy)
      obtain ⟨m, hm, hmi⟩ := ih (db.markPosted ar.id)
        (fun y hy => hsend y (List.mem_cons_of_mem _ hy)) hfind2 x h1
      exact ⟨m, List.mem_cons_of_mem _ hm, hmi⟩

theorem nodup_ids_countP_le_one (l : List Article)
    (h : (l.map (fun a => a.id)).Nodup) (i : Nat) :
    l.countP (fun a => a.id == i) ≤ 1 := by
  have h1 : l.countP (fun a => a.id == i) =
      (l.map (fun a => a.id)).countP (fun x => x == i) := by
    rw [List.countP_map]
    rfl
  rw [h1]
  have h2 := List.nodup_iff_count_le_one.mp h i
  rw [List.count] at h2
  exact h2

theorem pending_ids_nodup (db : DBState)
    (h : (db.articles.map (fun a => a.id)).Nodup) :
    (((db.articles.filter (fun ar => ar.posted == false))).map (fun a => a.id)).Nodup :=
  List.Nodup.sublist (List.Sublist.map _ (List.filter_sublist _)) h

theorem unpostedB_of_mem (db : DBState) (a : Article) (ha : a ∈ db.articles)
    (hp : a.posted = false) : db.unpostedB a.id = true := by
  unfold DBState.unpostedB
  rw [List.any_eq_true]
  exact ⟨a, ha, by simp [hp]⟩

theorem unpostedB_unpack (db : DBState) (i : Nat) (h : db.unpostedB i = true) :
    ∃ a, a ∈ db.articles ∧ a.id = i ∧ a.posted = false := by
  unfold DBState.unpostedB at h
  obtain ⟨a, ha, hpa⟩ := List.any_eq_true.mp h
  rw [Bool.and_eq_true] at hpa
  exact ⟨a, ha, eq_of_beq hpa.1, eq_of_beq hpa.2⟩

theorem pending_count_zero (db : DBState) (i : Nat) (h : db.unpostedB i = false) :
    (db.articles.filter (fun ar => ar.posted == false)).countP
      (fun a => a.id == i) = 0 := by
  rw [List.countP_eq_zero]
  intro a ha hid
  rcases List.mem_filter.mp ha with ⟨hmem, hpost⟩
  have htrue : db.unpostedB i = true := by
    unfold DBState.unpostedB
    rw [List.any_eq_true]
    exact ⟨a, hmem, by rw [Bool.and_eq_true]; exact ⟨hid, hpost⟩⟩
  rw [htrue] at h
  exact absurd h (by simp)

theorem post_articles_run_le (sendOk : Article → Bool) (db : DBState) (i : Nat)
    (h : (db.articles.map (fun a => a.id)).Nodup) :
    (SubstackBot.post_articles sendOk db).sent.countP (fun m => m.articleId == i)
      + ((SubstackBot.post_articles sendOk db).db.unpostedB i).toNat
      ≤ (db.unpostedB i).toNat := by
  unfold SubstackBot.post_articles
  cases hu : db.unpostedB i with
  | false =>
    have h0 := postLoop_countSent_le sendOk i
      (db.articles.filter (fun ar => ar.posted == false)) db
    have hz := pending_count_zero db i hu
    have hm := postLoop_unposted_mono sendOk i
      (db.articles.filter (fun ar => ar.posted == false)) db hu
    rw [hm]
    simp only [Bool.toNat_false]
    omega
  | true =>
    have h1 := nodup_ids_countP_le_one _ (pending_ids_nodup db h) i
    have h0 := postLoop_countSent_le sendOk i
      (db.articles.filter (fun ar => ar.posted == false)) db
    rcases Nat.eq_zero_or_pos ((postLoop sendOk
        (db.articles.filter (fun ar => ar.posted == false)) db).sent.countP
        (fun m => m.articleId == i)) with hz | hp
    · rw [hz]
      have hb : ((postLoop sendOk
          (db.articles.filter (fun ar => ar.posted == false)) db).db.unpostedB i).toNat ≤ 1 := by
        cases (postLoop sendOk
          (db.articles.filter (fun ar => ar.posted == false)) db).db.unpostedB i <;> simp
      simp only [Bool.toNat_true]
      omega
    · obtain ⟨m, hm, hmp⟩ := List.countP_pos_iff.mp hp
      have hdone := postLoop_sent_marked sendOk i
        (db.articles.filter (fun ar => ar.posted == false)) db m hm (eq_of_beq hmp)
      rw [hdone]
      simp only [Bool.toNat_false, Bool.toNat_true]
      omega

theorem post_articles_ids (sendOk : Article → Bool) (db : DBState) :
    (SubstackBot.post_articles sendOk db).db.articles.map (fun a => a.id) =
      db.articles.map (fun a => a.id) :=
  postLoop_ids sendOk (db.articles.filter (fun ar => ar.posted == false)) db

theorem postRuns_le (i : Nat) :
    ∀ (os : List (Article → Bool)) (db : DBState),
      (db.articles.map (fun a => a.id)).Nodup →
      (postRuns os db).1.countP (fun m => m.articleId == i)
        + ((postRuns os db).2.unpostedB i).toNat ≤ (db.unpostedB i).toNat := by
  intro os
  induction os with
  | nil => intro db h; simp [postRuns]
  | cons o os ih =>
    intro db h
    have hids := post_articles_ids o db
    have h2 := ih (SubstackBot.post_articles o db).db (by rw [hids]; exact h)
    have h1 := post_articles_run_le o db i h
    simp only [postRuns]
    rw [List.countP_append]
    omega

/-- Claim C1: across any number of PostPending invocations, at most one
chat message is ever sent for a given Article row (identified by its
primary key), and an Article whose posted flag is already true before the
first invocation is excluded from every scan: zero messages are ever
sent for it. -/
theorem c1_at_most_once_delivery (db : DBState)
    (hnd : (db.articles.map (fun a => a.id)).Nodup)
    (oracles : List (Article → Bool)) (i : Nat) :
    (postRuns oracles db).1.countP (fun m => m.articleId == i) ≤ 1 ∧
    (db.unpostedB i = false →
      (postRuns oracles db).1.countP (fun m => m.articleId == i) = 0) := by
  have h := postRuns_le i oracles db hnd
  constructor
  · have hb : (db.unpostedB i).toNat ≤ 1 := by cases db.unpostedB i <;> simp
    omega
  · intro h0
    rw [h0] at h
    simp only [Bool.toNat_false] at h
    omega

theorem c1_at_most_once_delivery_witness :
    (postRuns [fun _ => true] dbPost).1.countP (fun m => m.articleId == 1) ≤ 1 ∧
    (dbPost.unpostedB 1 = false →
      (postRuns [fun _ => true] dbPost).1.countP (fun m => m.articleId == 1) = 0) :=
  c1_at_most_once_delivery dbPost (by decide) [fun _ => true] 1

/-- Claim C2: the posted flag is set only after a successful delivery.
If the send for Article `a` fails (and every row has a unique primary
key), then after the PostPending invocation the row of `a` is still
unposted; any row that went from unposted to posted had a message
delivered for it during the invocation; and a subsequent PostPending
invocation whose sends all succeed (with every article resolving its
author) delivers a message for `a`. -/
theorem c2_posted_only_after_delivery (db : DBState) (sendOk : Article → Bool)
    (a : Article) (hnd : (db.articles.map (fun x => x.id)).Nodup)
    (ha : a ∈ db.articles) (hp : a.posted = false) (hf : sendOk a = false) :
    (SubstackBot.post_articles sendOk db).db.unpostedB a.id = true ∧
    (∀ i, db.unpostedB i = true →
      (SubstackBot.post_articles sendOk db).db.unpostedB i = false →
      ∃ m ∈ (SubstackBot.post_articles sendOk db).sent, m.articleId = i) ∧
    (∀ sendOk2 : Article → Bool, (∀ x, sendOk2 x = true) →
      (∀ x ∈ (SubstackBot.post_articles sendOk db).db.articles,
        ((SubstackBot.post_articles sendOk db).db.authors.find?
          (fun au => au.id == x.author_id)).isSome = true) →
      ∃ m ∈ (SubstackBot.post_articles sendOk2
        (SubstackBot.post_articles sendOk db).db).sent, m.articleId = a.id) := by
  have hu : db.unpostedB a.id = true := unpostedB_of_mem db a ha hp
  have hns : ∀ x ∈ db.articles.filter (fun ar => ar.posted == false),
      (x.id == a.id) = true → sendOk x = false := by
    intro x hx hxd
    have hxmem : x ∈ db.articles := (List.mem_filter.mp hx).1
    have hxa : x = a :=
      List.inj_on_of_nodup_map hnd hxmem ha (eq_of_beq hxd)
    rw [hxa]
    exact hf
  have h1 : (SubstackBot.post_articles sendOk db).db.unpostedB a.id =
      db.unpostedB a.id :=
    postLoop_no_send sendOk a.id
      (db.articles.filter (fun ar => ar.posted == false)) db hns
  refine ⟨h1.trans hu, ?_, ?_⟩
  · intro i hi hres
    have hne : (SubstackBot.post_articles sendOk db).db.unpostedB i ≠
        db.unpostedB i := by
      rw [hres, hi]
      simp
    exact postLoop_mark_implies_sent sendOk i
      (db.articles.filter (fun ar => ar.posted == false)) db hne
  · intro sendOk2 hall href
    obtain ⟨row, hrow_mem, hrow_id, hrow_posted⟩ :=
      unpostedB_unpack _ a.id (h1.trans hu)
    have hrow_pending : row ∈ (SubstackBot.post_articles sendOk db).db.articles.filter
        (fun ar => ar.posted == false) :=
      List.mem_filter.mpr ⟨hrow_mem, by simp [hrow_posted]⟩
    obtain ⟨m, hm, hmi⟩ := postLoop_all_sent sendOk2 _
      (SubstackBot.post_articles sendOk db).db
      (fun x _ => hall x)
      (fun x hx => href x (List.mem_filter.mp hx).1)
      row hrow_pending
    exact ⟨m, hm, hmi.trans hrow_id⟩

theorem c2_posted_only_after_delivery_witness :
    (SubstackBot.post_articles (fun _ => false) dbPost).db.unpostedB artP.id = true ∧
    (∀ i, dbPost.unpostedB i = true →
      (SubstackBot.post_articles (fun _ => false) dbPost).db.unpostedB i = false →
      ∃ m ∈ (SubstackBot.post_articles (fun _ => false) dbPost).sent, m.articleId = i) ∧
    (∀ sendOk2 : Article → Bool, (∀ x, sendOk2 x = true) →
      (∀ x ∈ (SubstackBot.post_articles (fun _ => false) dbPost).db.articles,
        ((SubstackBot.post_articles (fun _ => false) dbPost).db.authors.find?
          (fun au => au.id == x.author_id)).isSome = true) →
      ∃ m ∈ (SubstackBot.post_articles sendOk2
        (SubstackBot.post_articles (fun _ => false) dbPost).db).sent,
        m.articleId = artP.id) :=
  c2_posted_only_after_delivery dbPost (fun _ => false) artP
    (by decide) (by decide) (by decide) rfl
